import Mathlib

/-!
Verification of the repo2reel pipeline against its specification.

The Python sources are shallowly embedded:
* `src/merge_av.py`   → namespace `MergeAV`
* `src/llm_utils.py`  → namespace `LLMUtils`
* `src/app.py`        → namespace `App`
* `src/generate_video.py` → namespace `GenVideo`
* `src/generate_audio.py` → namespace `GenAudio`

Media durations are modelled as rationals (`ℚ`); the Python floats in the
source only ever enter comparisons and a single division, so the rational
model preserves every branch decision.  Effects of the environment (file
existence, `ffprobe` results, `ffmpeg` exit status, API availability) are
modelled as explicit environment records; a Python function that can raise
is embedded as a function into `Except`, and a `try/except` handler as a
`match` on that result.
-/

namespace Repo2Reel

namespace MergeAV

/-- The three merge strategies dispatched by
`AudioVideoMerger._merge_with_ffmpeg` (src/merge_av.py lines 57-69). -/
inductive MergeStrategy
  | simpleMerge
  | audioLoop
  | videoSpeedAdjust
deriving DecidableEq, Repr

/-- Strategy dispatch of `_merge_with_ffmpeg`: the two probed durations
(`None` = probe failed) decide the strategy.  Mirrors lines 57-69 of
src/merge_av.py: unknown durations → simple merge; `diff < 3.0` → simple
merge; `video_duration > audio_duration` → audio loop; otherwise video
speed adjust. -/
def selectStrategy : Option ℚ → Option ℚ → MergeStrategy
  | some videoDuration, some audioDuration =>
    if |videoDuration - audioDuration| < 3.0 then .simpleMerge
    else if videoDuration > audioDuration then .audioLoop
    else .videoSpeedAdjust
  | _, _ => .simpleMerge

/-- Outcome of the speed-factor check in
`_merge_with_video_speed_adjust` (src/merge_av.py lines 145-150). -/
inductive SpeedDecision
  | applySetpts (speedFactor : ℚ)
  | fallbackSimple
deriving DecidableEq, Repr

/-- The speed-factor computation and range check of
`_merge_with_video_speed_adjust`: `speed_factor = video_duration /
target_duration`; if it lies outside `[0.5, 2.0]` the code falls back to
`_simple_merge`, otherwise it applies the `setpts=PTS/speed_factor`
filter. -/
def speedAdjustDecision (videoDuration targetDuration : ℚ) : SpeedDecision :=
  let speedFactor := videoDuration / targetDuration
  if speedFactor < 0.5 ∨ speedFactor > 2.0 then .fallbackSimple
  else .applySetpts speedFactor

/-- Environment for `AudioVideoMerger`: which files exist, what `ffprobe`
reports for each path, and whether each ffmpeg invocation exits with
status 0.  A non-zero exit and an exception inside a subprocess call are
both modelled as `false` (both make the corresponding helper report
failure; the claims under verification do not distinguish them). -/
structure MergeEnv where
  fileExists : String → Bool
  probe : String → Option ℚ
  simpleMergeOk : Bool
  audioLoopOk : Bool
  speedAdjustOk : Bool
  verifyOk : Bool

/-- `_merge_with_video_speed_adjust` (lines 137-176): re-probe the video
duration (`None` → simple merge), apply the speed-factor check, and on a
failed speed-adjust invocation fall back to `_simple_merge`. -/
def mergeWithVideoSpeedAdjust (env : MergeEnv) (videoFile : String) (targetDuration : ℚ) : Bool :=
  match env.probe videoFile with
  | none => env.simpleMergeOk
  | some videoDuration =>
    match speedAdjustDecision videoDuration targetDuration with
    | .fallbackSimple => env.simpleMergeOk
    | .applySetpts _ => if env.speedAdjustOk then true else env.simpleMergeOk

/-- `_merge_with_ffmpeg` (lines 50-73): probe both durations and dispatch;
a failed audio-loop invocation falls back to `_simple_merge` (line 131). -/
def mergeWithFfmpeg (env : MergeEnv) (videoFile audioFile : String) : Bool :=
  match env.probe videoFile, env.probe audioFile with
  | some videoDuration, some audioDuration =>
    if |videoDuration - audioDuration| < 3.0 then env.simpleMergeOk
    else if videoDuration > audioDuration then
      (if env.audioLoopOk then true else env.simpleMergeOk)
    else mergeWithVideoSpeedAdjust env videoFile audioDuration
  | _, _ => env.simpleMergeOk

/-- Output path built at line 25 of src/merge_av.py. -/
def outputFile (sessionId : String) : String :=
  "repo2reel_" ++ sessionId ++ "_final.mp4"

/-- The single error the body of `merge_audio_video` can raise
(`FileNotFoundError`, line 19) — the spec calls it `MergeInputMissing`. -/
inductive MergeErr
  | videoNotFound (path : String)
deriving DecidableEq, Repr

/-- The `try`-block of `AudioVideoMerger.merge_audio_video`
(src/merge_av.py lines 17-43), i.e. the body before its own
`except Exception` handler: it raises when the video file is missing,
returns the video path when the audio file is missing, and otherwise
returns the merged output on success (subject to verification) or the
original video path on failure. -/
def mergeAudioVideoBody (env : MergeEnv) (videoFile audioFile sessionId : String) :
    Except MergeErr String :=
  if env.fileExists videoFile = false then .error (.videoNotFound videoFile)
  else if env.fileExists audioFile = false then .ok videoFile
  else
    let out := outputFile sessionId
    if mergeWithFfmpeg env videoFile audioFile && env.fileExists out then
      (if env.verifyOk then .ok out else .ok videoFile)
    else .ok videoFile

/-- The full `merge_audio_video` method including its
`except Exception` handler (lines 45-48), which catches every exception —
including the `FileNotFoundError` raised by its own body — and returns
the video path.  An `.error` in the codomain would mean an exception
propagating to the caller; the handler makes that impossible. -/
def mergeAudioVideo (env : MergeEnv) (videoFile audioFile sessionId : String) :
    Except MergeErr String :=
  match mergeAudioVideoBody env videoFile audioFile sessionId with
  | .ok p => .ok p
  | .error _ => .ok videoFile

/-- Environment in which no file exists and no probe succeeds. -/
def envNoFiles : MergeEnv :=
  ⟨fun _ => false, fun _ => none, false, false, false, false⟩

end MergeAV

end Repo2Reel

namespace Repo2Reel

namespace MergeAV

/-- C3: for probed durations of existing inputs, exactly one strategy is
selected: direct mux (simple merge) when `|Dv - Da| < 3.0` or when either
probe failed; audio-loop when `Dv > Da` and the difference is at least
3.0; video time-scale when `Da > Dv` and the difference is at least
3.0. -/
theorem c3_strategy_selection (dv da : ℚ) :
    (|dv - da| < 3.0 → selectStrategy (some dv) (some da) = .simpleMerge)
    ∧ (da < dv → 3.0 ≤ |dv - da| → selectStrategy (some dv) (some da) = .audioLoop)
    ∧ (dv < da → 3.0 ≤ |dv - da| → selectStrategy (some dv) (some da) = .videoSpeedAdjust)
    ∧ (∀ x : Option ℚ, selectStrategy none x = .simpleMerge ∧ selectStrategy x none = .simpleMerge) := by
  refine ⟨fun h => ?_, fun h1 h2 => ?_, fun h1 h2 => ?_, fun x => ⟨rfl, ?_⟩⟩
  · simp [selectStrategy, h]
  · simp [selectStrategy, not_lt.mpr h2, h1]
  · simp [selectStrategy, not_lt.mpr h2, not_lt.mpr h1.le]
  · cases x <;> rfl

/-- Witness for C3 on the spec's own example durations:
`(Dv, Da) = (10, 10.5)` → direct mux, `(40, 8)` → audio loop,
`(8, 12)` → video time-scale, and a failed video probe → direct mux. -/
theorem c3_strategy_selection_witness :
    selectStrategy (some 10) (some (21 / 2)) = .simpleMerge
    ∧ selectStrategy (some 40) (some 8) = .audioLoop
    ∧ selectStrategy (some 8) (some 12) = .videoSpeedAdjust
    ∧ selectStrategy none (some 8) = .simpleMerge :=
  ⟨(c3_strategy_selection 10 (21 / 2)).1 (by rw [abs_lt]; constructor <;> norm_num),
   (c3_strategy_selection 40 8).2.1 (by norm_num) (by rw [le_abs]; left; norm_num),
   (c3_strategy_selection 8 12).2.2.1 (by norm_num) (by rw [le_abs]; right; norm_num),
   ((c3_strategy_selection 0 0).2.2.2 (some 8)).1⟩

/-- C4: whenever the video time-scale strategy is selected (`Da > Dv`,
difference at least 3.0), the computed speed factor is `Dv / Da`;
`setpts` rescaling is applied exactly when `0.5 ≤ Dv / Da ≤ 2.0`, and
outside that range the code falls back to the direct-mux (simple merge)
strategy. -/
theorem c4_speed_factor (dv da : ℚ) (h1 : dv < da) (h2 : 3.0 ≤ |dv - da|) :
    selectStrategy (some dv) (some da) = .videoSpeedAdjust
    ∧ (speedAdjustDecision dv da = .applySetpts (dv / da) ↔ 0.5 ≤ dv / da ∧ dv / da ≤ 2.0)
    ∧ (¬ (0.5 ≤ dv / da ∧ dv / da ≤ 2.0) → speedAdjustDecision dv da = .fallbackSimple) := by
  refine ⟨by simp [selectStrategy, not_lt.mpr h2, not_lt.mpr h1.le], ?_, ?_⟩
  · constructor
    · intro h
      by_contra hc
      rcases not_and_or.mp hc with hc | hc
      · simp [speedAdjustDecision, not_le.mp hc] at h
      · simp [speedAdjustDecision, not_le.mp hc] at h
    · rintro ⟨hl, hr⟩
      simp [speedAdjustDecision, not_lt.mpr hl, not_lt.mpr hr]
  · intro hc
    rcases not_and_or.mp hc with hc | hc
    · simp [speedAdjustDecision, not_le.mp hc]
    · simp [speedAdjustDecision, not_le.mp hc]

/-- Witness for C4 on the spec's examples: `(Dv, Da) = (8, 40)` gives
speed factor `1/5`, outside `[0.5, 2]`, so the decision is the simple-merge
fallback; `(Dv, Da) = (8, 12)` gives `2/3`, in range, so `setpts` is
applied. -/
theorem c4_speed_factor_witness :
    speedAdjustDecision 8 40 = .fallbackSimple
    ∧ speedAdjustDecision 8 12 = .applySetpts (8 / 12) :=
  ⟨(c4_speed_factor 8 40 (by norm_num) (by rw [le_abs]; right; norm_num)).2.2 (by norm_num),
   (c4_speed_factor 8 12 (by norm_num) (by rw [le_abs]; right; norm_num)).2.1.mpr
     (by norm_num)⟩

/-- C1 counterexample: with no files on disk, `merge_audio_video` does
NOT fail — the `FileNotFoundError` raised for the missing video file
(line 19) is caught by the method's own `except Exception` handler
(lines 45-48), which returns the video path.  The body does raise
(second conjunct), but the caller observes a normal return (first
conjunct), so no `MergeInputMissing` stage failure ever reaches the
Controller. -/
theorem c1_counterexample :
    mergeAudioVideo envNoFiles "video.mp4" "audio.wav" "s1" = .ok "video.mp4"
    ∧ mergeAudioVideoBody envNoFiles "video.mp4" "audio.wav" "s1"
        = .error (.videoNotFound "video.mp4") := by
  exact ⟨rfl, rfl⟩

/-- C1 amended: if the video path does not exist, the body of
`merge_audio_video` raises `FileNotFoundError` (the spec's
`MergeInputMissing`), but the method's own handler catches it and returns
the video path unchanged, so the operation never fails; if the video
exists and the audio does not, the method performs no merge and returns
the video path unchanged; in every case the method returns some path and
never propagates an error. -/
theorem c1_merge_contract (env : MergeEnv) (v a sid : String) :
    (env.fileExists v = false →
      mergeAudioVideoBody env v a sid = .error (.videoNotFound v)
      ∧ mergeAudioVideo env v a sid = .ok v)
    ∧ (env.fileExists v = true → env.fileExists a = false →
      mergeAudioVideo env v a sid = .ok v)
    ∧ (∃ p, mergeAudioVideo env v a sid = .ok p) := by
  refine ⟨fun hv => ?_, fun hv ha => ?_, ?_⟩
  · constructor
    · simp [mergeAudioVideoBody, hv]
    · simp [mergeAudioVideo, mergeAudioVideoBody, hv]
  · simp [mergeAudioVideo, mergeAudioVideoBody, hv, ha]
  · rw [mergeAudioVideo]
    rcases h : mergeAudioVideoBody env v a sid with e | p
    · exact ⟨v, rfl⟩
    · exact ⟨p, rfl⟩

/-- Witness for the amended C1 theorem at the concrete empty
environment: the body raises and the handler converts that into a normal
return of the video path. -/
theorem c1_merge_contract_witness :
    mergeAudioVideoBody envNoFiles "v.mp4" "a.wav" "s" = .error (.videoNotFound "v.mp4")
    ∧ mergeAudioVideo envNoFiles "v.mp4" "a.wav" "s" = .ok "v.mp4" :=
  (c1_merge_contract envNoFiles "v.mp4" "a.wav" "s").1 rfl

end MergeAV

end Repo2Reel

namespace Repo2Reel

namespace App

/-- One session entry of the global `processing_status` map
(src/app.py lines 86-93). -/
structure Sess where
  status : String
  progress : Nat
  message : String
  error : Option String
  resultFile : Option String
  githubUrl : String
deriving DecidableEq, Repr

/-- The entry created by `process_repository` before the background
thread starts (src/app.py lines 86-93). -/
def initialSession (githubUrl : String) : Sess :=
  ⟨"starting", 0, "Initializing repository processing...", none, none, githubUrl⟩

/-- Status update on entering repository analysis (lines 108-112). -/
def updAnalyzing (s : Sess) : Sess :=
  { s with status := "analyzing", progress := 10,
           message := "Downloading and analyzing repository content..." }

/-- Status update on entering script generation (lines 125-128): only
`progress` and `message` change — `status` is NOT touched. -/
def updScripting (s : Sess) : Sess :=
  { s with progress := 30,
           message := "Generating video script from repository analysis..." }

/-- Status update on entering audio generation (lines 137-140). -/
def updAudioGen (s : Sess) : Sess :=
  { s with progress := 50, message := "Creating audio narration from script..." }

/-- Status update on entering video generation (lines 148-151). -/
def updVideoGen (s : Sess) : Sess :=
  { s with progress := 70, message := "Generating video content and visuals..." }

/-- Status update on entering the merge step (lines 159-162). -/
def updMerging (s : Sess) : Sess :=
  { s with progress := 90, message := "Merging audio and video components..." }

/-- Final update on success (lines 170-175). -/
def updCompleted (finalVideo : String) (s : Sess) : Sess :=
  { s with status := "completed", progress := 100,
           message := "Video generation completed successfully!",
           resultFile := some finalVideo }

/-- The `except` branch of `process_repository_background`
(lines 179-186): `status` becomes `"error"`, the message is recorded —
and `progress` is left untouched. -/
def updError (errMsg : String) (s : Sess) : Sess :=
  { s with status := "error", error := some errMsg,
           message := "Error: " ++ errMsg }

/-- The five pieces of work between status updates, any of which can
raise and send the worker to the `except` branch. -/
inductive Stage
  | analysis
  | scripting
  | audioGen
  | videoGen
  | merging
deriving DecidableEq, Repr

/-- The sequence of mutations `process_repository_background` applies to
the session entry, as a function of which work stage (if any) raises:
each stage's update runs before its work, so a failure at stage `k`
happens after the first `k` updates, and the `except` branch then runs
`updError`. -/
def stageUpdates (finalVideo errMsg : String) : Option Stage → List (Sess → Sess)
  | none => [updAnalyzing, updScripting, updAudioGen, updVideoGen, updMerging,
             updCompleted finalVideo]
  | some .analysis => [updAnalyzing, updError errMsg]
  | some .scripting => [updAnalyzing, updScripting, updError errMsg]
  | some .audioGen => [updAnalyzing, updScripting, updAudioGen, updError errMsg]
  | some .videoGen => [updAnalyzing, updScripting, updAudioGen, updVideoGen,
                       updError errMsg]
  | some .merging => [updAnalyzing, updScripting, updAudioGen, updVideoGen,
                      updMerging, updError errMsg]

/-- Every state the session entry passes through, in order: the initial
entry followed by the result of each successive update.  A
`get_status` poll (src/app.py lines 202-209) returns whichever of these
states is current, so any temporally ordered poll sequence reads this
list at non-decreasing indices. -/
def sessionTrace (githubUrl finalVideo errMsg : String) (failAt : Option Stage) :
    List Sess :=
  List.scanl (fun s f => f s) (initialSession githubUrl)
    (stageUpdates finalVideo errMsg failAt)

/-- The status strings of a trace, per failure point. -/
def expectedStatuses : Option Stage → List String
  | none => ["starting", "analyzing", "analyzing", "analyzing", "analyzing",
             "analyzing", "completed"]
  | some .analysis => ["starting", "analyzing", "error"]
  | some .scripting => ["starting", "analyzing", "analyzing", "error"]
  | some .audioGen => ["starting", "analyzing", "analyzing", "analyzing", "error"]
  | some .videoGen => ["starting", "analyzing", "analyzing", "analyzing",
                       "analyzing", "error"]
  | some .merging => ["starting", "analyzing", "analyzing", "analyzing",
                      "analyzing", "analyzing", "error"]

/-- The progress checkpoints of a trace, per failure point. -/
def expectedProgress : Option Stage → List Nat
  | none => [0, 10, 30, 50, 70, 90, 100]
  | some .analysis => [0, 10, 10]
  | some .scripting => [0, 10, 30, 30]
  | some .audioGen => [0, 10, 30, 50, 50]
  | some .videoGen => [0, 10, 30, 50, 70, 70]
  | some .merging => [0, 10, 30, 50, 70, 90, 90]

/-- C5 counterexample: in a successful run the worker never sets the
per-stage statuses the claim lists.  The status sequence is
`starting, analyzing, ..., analyzing, completed`: the four checkpoint
updates at 30/50/70/90 change only `progress`, so the states with
progress 30 and 50 share the status `"analyzing"` — `progress` is not a
function of the ordinal position of `status`, and the statuses
`scripting`, `synthesizing_audio`, `rendering_video`, `merging` never
occur. -/
theorem c5_counterexample :
    ((sessionTrace "u" "out.mp4" "e" none).map (fun s => (s.status, s.progress))) =
      [("starting", 0), ("analyzing", 10), ("analyzing", 30), ("analyzing", 50),
       ("analyzing", 70), ("analyzing", 90), ("completed", 100)]
    ∧ ((sessionTrace "u" "out.mp4" "e" none).all
        (fun s => s.status != "scripting")) = true := by
  exact ⟨rfl, rfl⟩

/-- The status and progress columns of every trace, per failure point
(shared helper). -/
theorem sessionTrace_maps (url fv em : String) (failAt : Option Stage) :
    (sessionTrace url fv em failAt).map Sess.status = expectedStatuses failAt
    ∧ (sessionTrace url fv em failAt).map Sess.progress = expectedProgress failAt := by
  rcases failAt with _ | st
  · exact ⟨rfl, rfl⟩
  · cases st <;> exact ⟨rfl, rfl⟩

/-- C5 amended: the worker sets `status` to `"analyzing"` (progress 10)
on entry, then advances only `progress` through the fixed checkpoints
30/50/70/90 at the later stage entries while `status` stays
`"analyzing"`; the only further status changes are the terminal ones —
`"completed"` with progress 100, or `"error"` with progress unchanged.
The per-stage status names of the claim are never assigned, so progress
does not track the ordinal of `status`. -/
theorem c5_trace_characterization (url fv em : String) (failAt : Option Stage) :
    (sessionTrace url fv em failAt).map Sess.status = expectedStatuses failAt
    ∧ (sessionTrace url fv em failAt).map Sess.progress = expectedProgress failAt :=
  sessionTrace_maps url fv em failAt

/-- C6: over a session's lifetime the progress values are monotonically
non-decreasing in time (hence any ordered sequence of `get_status` polls
observes a non-decreasing sequence); a successful run ends at progress
100 with status `"completed"`; a failed run ends with status `"error"`
(the code's terminal failure marker) at a progress strictly below 100;
and the failure branch leaves `progress` untouched, so it never
decreases it. -/
theorem c6_progress_monotone (url fv em : String) (failAt : Option Stage) :
    List.Pairwise (· ≤ ·) ((sessionTrace url fv em failAt).map Sess.progress)
    ∧ (failAt = none →
        ((sessionTrace url fv em failAt).map Sess.progress).getLast? = some 100
        ∧ ((sessionTrace url fv em failAt).map Sess.status).getLast? = some "completed")
    ∧ (∀ st, failAt = some st →
        (∀ p ∈ ((sessionTrace url fv em failAt).map Sess.progress).getLast?, p < 100)
        ∧ ((sessionTrace url fv em failAt).map Sess.status).getLast? = some "error")
    ∧ (∀ (s : Sess) (m : String), (updError m s).progress = s.progress) := by
  obtain ⟨hs, hp⟩ := sessionTrace_maps url fv em failAt
  refine ⟨?_, fun h => ?_, fun st h => ?_, fun s m => rfl⟩
  · rw [hp]
    rcases failAt with _ | st
    · decide
    · cases st <;> decide
  · subst h
    rw [hp, hs]
    exact ⟨rfl, rfl⟩
  · subst h
    refine ⟨?_, ?_⟩
    · rw [hp]
      cases st <;> (intro p hmem; simp [expectedProgress] at hmem; omega)
    · rw [hs]
      cases st <;> rfl

/-- Witness for C6 on a run that fails during the merge stage: the
observed progress list is pairwise non-decreasing and the terminal state
is `"error"` at progress 90 < 100. -/
theorem c6_progress_monotone_witness :
    List.Pairwise (· ≤ ·)
      ((sessionTrace "u" "f.mp4" "boom" (some .merging)).map Sess.progress)
    ∧ (∀ p ∈ ((sessionTrace "u" "f.mp4" "boom" (some .merging)).map
        Sess.progress).getLast?, p < 100)
    ∧ ((sessionTrace "u" "f.mp4" "boom" (some .merging)).map
        Sess.status).getLast? = some "error" :=
  ⟨(c6_progress_monotone "u" "f.mp4" "boom" (some .merging)).1,
   ((c6_progress_monotone "u" "f.mp4" "boom" (some .merging)).2.2.1 .merging rfl).1,
   ((c6_progress_monotone "u" "f.mp4" "boom" (some .merging)).2.2.1 .merging rfl).2⟩

end App

end Repo2Reel

namespace Repo2Reel

namespace LLMUtils

/-- Environment for `LLMProcessor` (src/llm_utils.py): which API keys
are present in the process environment, and each remote provider's
outcome when invoked (`some r` = HTTP 200 with generated text `r`;
`none` = the corresponding `_generate_with_*` helper raises).
`localResult` is the string produced by `_generate_with_local`; that
helper catches every exception and bottoms out in a fixed template
string, so it is total. -/
structure LLMEnv where
  hasGroq : Bool
  hasOpenai : Bool
  hasAnthropic : Bool
  hasTogether : Bool
  hasHuggingface : Bool
  groqResult : Option String
  openaiResult : Option String
  anthropicResult : Option String
  togetherResult : Option String
  huggingfaceResult : Option String
  localResult : String

/-- `LLMProcessor._determine_service` (lines 25-38): the single service
chosen at construction time, by key presence in a fixed priority
order. -/
def determineService (env : LLMEnv) : String :=
  if env.hasGroq then "groq"
  else if env.hasOpenai then "openai"
  else if env.hasAnthropic then "anthropic"
  else if env.hasTogether then "together"
  else if env.hasHuggingface then "huggingface"
  else "local"

/-- Outcome of invoking one service by name (`none` = the helper
raises; the local generator never raises). -/
def providerResult (env : LLMEnv) : String → Option String
  | "groq" => env.groqResult
  | "openai" => env.openaiResult
  | "anthropic" => env.anthropicResult
  | "together" => env.togetherResult
  | "huggingface" => env.huggingfaceResult
  | _ => some env.localResult

/-- `LLMProcessor.generate_text` (lines 40-59): invoke the single
selected service; on any exception fall back directly to
`_generate_with_local`.  No other remote provider is consulted. -/
def generateText (env : LLMEnv) : String :=
  match providerResult env (determineService env) with
  | some r => r
  | none => env.localResult

/-- The services `generate_text` actually invokes, in order. -/
def generateTextTrace (env : LLMEnv) : List String :=
  match providerResult env (determineService env) with
  | some _ => [determineService env]
  | none => [determineService env, "local"]

/-- The provider priority order of `_determine_service`. -/
def orderedProviders : List String :=
  ["groq", "openai", "anthropic", "together", "huggingface"]

/-- Availability predicate (key presence) per provider. -/
def providerAvailable (env : LLMEnv) : String → Bool
  | "groq" => env.hasGroq
  | "openai" => env.hasOpenai
  | "anthropic" => env.hasAnthropic
  | "together" => env.hasTogether
  | "huggingface" => env.hasHuggingface
  | _ => false

/-- Modelled from the spec (§4.2 Capability Cascade), for comparison
with the code's `generateText`: try each available provider in priority
order, continue to the next provider on a recoverable failure, and run
the guaranteed local fallback only after every configured provider has
failed. -/
def specCascadeText (env : LLMEnv) : String :=
  (((orderedProviders.filter (providerAvailable env)).filterMap
    (providerResult env)).headD env.localResult)

/-- Environment in which provider 1 (groq) is configured and fails
recoverably and provider 2 (openai) is configured and would succeed. -/
def envGroqFailsOpenaiOk : LLMEnv :=
  ⟨true, true, false, false, false, none, some "OPENAI", none, none, none, "LOCAL"⟩

/-- C2 counterexample: with groq and openai both configured, groq
failing recoverably and openai able to succeed, `generate_text` returns
the local fallback's text, not openai's result — after the selected
provider fails the code jumps straight to `_generate_with_local`
(line 59) and never invokes the next provider, unlike the spec's
cascade. -/
theorem c2_counterexample :
    determineService envGroqFailsOpenaiOk = "groq"
    ∧ envGroqFailsOpenaiOk.groqResult = none
    ∧ envGroqFailsOpenaiOk.openaiResult = some "OPENAI"
    ∧ generateText envGroqFailsOpenaiOk = "LOCAL"
    ∧ generateTextTrace envGroqFailsOpenaiOk = ["groq", "local"]
    ∧ specCascadeText envGroqFailsOpenaiOk = "OPENAI"
    ∧ generateText envGroqFailsOpenaiOk ≠ specCascadeText envGroqFailsOpenaiOk := by
  decide

/-- C2 amended: `generate_text` consults exactly one remote provider —
the first one in the order groq, openai, anthropic, together,
huggingface whose key is present (else the local generator).  If that
provider succeeds its result is returned and nothing else is invoked;
if it fails (recoverably or not) the code falls back directly to the
local generator, skipping every remaining provider. -/
theorem c2_single_provider_fallback (env : LLMEnv) :
    (∀ r, providerResult env (determineService env) = some r →
      generateText env = r ∧ generateTextTrace env = [determineService env])
    ∧ (providerResult env (determineService env) = none →
      generateText env = env.localResult
      ∧ generateTextTrace env = [determineService env, "local"])
    ∧ (∀ p ∈ generateTextTrace env, p = determineService env ∨ p = "local") := by
  refine ⟨fun r hr => ?_, fun hr => ?_, fun p hp => ?_⟩
  · simp [generateText, generateTextTrace, hr]
  · simp [generateText, generateTextTrace, hr]
  · rw [generateTextTrace] at hp
    rcases h : providerResult env (determineService env) with _ | r <;>
      rw [h] at hp <;> simp at hp <;> tauto

/-- Witness for the amended C2 theorem: at `envGroqFailsOpenaiOk` the
selected provider (groq) fails, so the result is the local fallback text
and the invocation trace is groq followed by local. -/
theorem c2_single_provider_fallback_witness :
    generateText envGroqFailsOpenaiOk = "LOCAL"
    ∧ generateTextTrace envGroqFailsOpenaiOk = ["groq", "local"] :=
  (c2_single_provider_fallback envGroqFailsOpenaiOk).2.1 rfl

end LLMUtils

end Repo2Reel

namespace Repo2Reel

namespace GenVideo

/-- Python whitespace (`str.split()` / `str.strip()` ASCII set). -/
def isPyWS (c : Char) : Bool :=
  c == ' ' || c == '\t' || c == '\n' || c == '\r' ||
    c == Char.ofNat 11 || c == Char.ofNat 12

/-- Python `str.strip()`: drop leading and trailing whitespace. -/
def pyStrip (l : List Char) : List Char :=
  ((l.dropWhile isPyWS).reverse.dropWhile isPyWS).reverse

/-- Python `str.split('\n')` (keeps empty pieces). -/
def splitLines : List Char → List (List Char)
  | [] => [[]]
  | '\n' :: rest => [] :: splitLines rest
  | c :: rest =>
    match splitLines rest with
    | chunk :: chunks => (c :: chunk) :: chunks
    | [] => [[c]]

/-- Python `str.split('\n\n')`: non-overlapping left-to-right split on a
blank line (keeps empty pieces). -/
def splitParas : List Char → List (List Char)
  | [] => [[]]
  | '\n' :: '\n' :: rest => [] :: splitParas rest
  | c :: rest =>
    match splitParas rest with
    | chunk :: chunks => (c :: chunk) :: chunks
    | [] => [[c]]

/-- Python `str.split('. ')`: non-overlapping left-to-right split on a
sentence boundary (keeps empty pieces). -/
def splitSent : List Char → List (List Char)
  | [] => [[]]
  | '.' :: ' ' :: rest => [] :: splitSent rest
  | c :: rest =>
    match splitSent rest with
    | chunk :: chunks => (c :: chunk) :: chunks
    | [] => [[c]]

/-- Helper for `pyWords`: accumulates the current word reversed. -/
def pyWordsAux : List Char → List Char → List (List Char)
  | acc, [] => if acc = [] then [] else [acc.reverse]
  | acc, c :: rest =>
    if isPyWS c then
      (if acc = [] then pyWordsAux [] rest else acc.reverse :: pyWordsAux [] rest)
    else pyWordsAux (c :: acc) rest

/-- Python `str.split()` with no argument: whitespace-run split, empty
pieces dropped. -/
def pyWords (l : List Char) : List (List Char) := pyWordsAux [] l

/-- The marker-line test of `_split_script_into_sections`
(src/generate_video.py line 118): `'[' in line and ']' in line and
any(char.isdigit() for char in line)`. -/
def lineHasBracketDigit (line : List Char) : Bool :=
  line.contains '[' && line.contains ']' && line.any Char.isDigit

/-- The accumulation loop over lines (src/generate_video.py lines
113-126): a marker line flushes the current section (if non-blank after
stripping) and starts a new one; any other line is appended to the
current section; the final section is flushed at the end. -/
def markerLoop : List (List Char) → List (List Char) → List Char → List (List Char)
  | [], secs, cur => secs ++ (if pyStrip cur ≠ [] then [pyStrip cur] else [])
  | line :: ls, secs, cur =>
    if lineHasBracketDigit line then
      markerLoop ls (secs ++ (if pyStrip cur ≠ [] then [pyStrip cur] else []))
        (line ++ ['\n'])
    else markerLoop ls secs (cur ++ line ++ ['\n'])

/-- The timing-marker rule's candidate sections: computed only when the
script contains both `'['` and `']'` (line 112), else empty. -/
def markerCandidate (script : List Char) : List (List Char) :=
  if script.contains '[' && script.contains ']' then
    markerLoop (splitLines script) [] []
  else []

/-- Python `range(0, stop, step)` for `step > 0`. -/
def pyRangeStep (stop step : Nat) : List Nat :=
  (List.range ((stop + step - 1) / step)).map (· * step)

/-- The grouping loops of the sentence and word rules (lines 142-146 and
152-157): take consecutive slices of `size` elements, join each with
`sep`, and keep the non-empty results. -/
def groupJoin (xs : List (List Char)) (size : Nat) (sep : List Char) :
    List (List Char) :=
  ((pyRangeStep xs.length size).map
    (fun i => List.intercalate sep ((xs.drop i).take size))).filter (· ≠ [])

/-- `VideoGenerator._split_script_into_sections`
(src/generate_video.py lines 109-159), rule by rule: timing markers
(needs ≥ 2 sections), blank-line paragraphs (needs more than one raw
piece), sentences (needs more than 4), words (needs more than 40), else
the whole script, with a placeholder for an empty script. -/
def splitScriptIntoSections (script : List Char) : List (List Char) :=
  let viaMarkers := markerCandidate script
  if 2 ≤ viaMarkers.length then viaMarkers
  else
    let paragraphs := splitParas script
    if 1 < paragraphs.length then (paragraphs.map pyStrip).filter (· ≠ [])
    else
      let sentences := splitSent script
      if 4 < sentences.length then
        groupJoin sentences (max (sentences.length / 4) 1) ['.', ' ']
      else
        let ws := pyWords script
        if 40 < ws.length then groupJoin ws (max (ws.length / 4) 20) [' ']
        else if script ≠ [] then [script]
        else [String.data "Repository Overview"]

/-- One scene as built by `_create_scenes` (src/generate_video.py lines
78-90), restricted to the fields the claims speak about: `duration`,
`start_time` and the truncated `text`. -/
structure Scene where
  duration : ℚ
  startTime : ℚ
  text : List Char
deriving DecidableEq, Repr

/-- The text truncation of line 82: `section[:150] + '...'` when longer
than 150 characters. -/
def truncText (s : List Char) : List Char :=
  if 150 < s.length then s.take 150 ++ String.data "..." else s

/-- `VideoGenerator._create_scenes` (lines 55-107): equal split of the
total duration over the sections, with `start_time = i * scene_duration`.
When the section list is empty the division `duration /
len(script_sections)` raises `ZeroDivisionError`, the method's `except`
branch catches it and returns the single default scene of lines 97-107
(full duration, start 0, text `script[:200]`). -/
def createScenes (script : List Char) (duration : ℚ) : List Scene :=
  let sections := splitScriptIntoSections script
  if sections = [] then [⟨duration, 0, script.take 200⟩]
  else
    let sceneDuration := duration / sections.length
    sections.enum.map (fun p => ⟨sceneDuration, p.1 * sceneDuration, truncText p.2⟩)

/-- Python `max(a, b)` on two numbers. -/
def pyMax (a b : ℚ) : ℚ := if a < b then b else a

/-- Python `min(a, b)` on two numbers. -/
def pyMin (a b : ℚ) : ℚ := if b < a then b else a

/-- The duration estimate of `generate_video` (lines 29-31):
`min(max(words * 0.4, 30), 300)`. -/
def videoDuration (script : List Char) : ℚ :=
  pyMin (pyMax ((pyWords script).length * (0.4 : ℚ)) 30) 300

/-- The scene sequence `generate_video` hands to the renderer. -/
def generateVideoScenes (script : List Char) : List Scene :=
  createScenes script (videoDuration script)

/-- Rule 2 (blank-line paragraphs) is selected iff the marker rule did
not produce at least 2 sections and the raw `'\n\n'` split has more than
one piece (src/generate_video.py lines 128 and 133). -/
def paragraphRuleSelected (script : List Char) : Prop :=
  (markerCandidate script).length < 2 ∧ 1 < (splitParas script).length

end GenVideo

end Repo2Reel

namespace Repo2Reel

namespace GenVideo

/-- Python `max` agrees with the order-theoretic `max` on `ℚ`. -/
theorem pyMax_eq_max (a b : ℚ) : pyMax a b = max a b := by
  rcases lt_trichotomy a b with h | h | h
  · simp [pyMax, max_def, h, h.le]
  · subst h
    simp [pyMax, max_def]
  · simp [pyMax, max_def, not_lt.mpr h.le, not_le.mpr h]

/-- Python `min` agrees with the order-theoretic `min` on `ℚ`. -/
theorem pyMin_eq_min (a b : ℚ) : pyMin a b = min a b := by
  rcases lt_trichotomy a b with h | h | h
  · simp [pyMin, min_def, h.le, not_lt.mpr h.le]
  · subst h
    simp [pyMin, min_def]
  · simp [pyMin, min_def, h, not_le.mpr h]

/-- `n` copies of `d / n` sum to `d` when `n ≠ 0`. -/
theorem sum_replicate_div (n : ℕ) (d : ℚ) (hn : n ≠ 0) :
    (List.replicate n (d / (n : ℚ))).sum = d := by
  have hc : (n : ℚ) ≠ 0 := Nat.cast_ne_zero.mpr hn
  rw [List.sum_replicate, nsmul_eq_mul, mul_comm, div_mul_cancel₀ _ hc]

/-- C7: for every non-empty narration script the generated scene
sequence is non-empty; the total duration is
`clamp(wordCount * 0.4, 30, 300)`; every scene's duration equals
`totalDuration / sceneCount` (the duration list is constant); the
durations sum exactly to the total duration (the rational model is
exact, subsuming "within rounding"); and each scene's start offset is
the sum of the prior scenes' durations (contiguous and ascending). -/
theorem c7_scene_partition (script : List Char) (_hs : script ≠ []) :
    generateVideoScenes script ≠ []
    ∧ videoDuration script = min (max (((pyWords script).length : ℚ) * 0.4) 30) 300
    ∧ (generateVideoScenes script).map Scene.duration
        = List.replicate (generateVideoScenes script).length
            (videoDuration script / ((generateVideoScenes script).length : ℚ))
    ∧ ((generateVideoScenes script).map Scene.duration).sum = videoDuration script
    ∧ (generateVideoScenes script).map Scene.startTime
        = (List.range (generateVideoScenes script).length).map
            (fun i => (((generateVideoScenes script).take i).map Scene.duration).sum) := by
  have hclamp : videoDuration script
      = min (max (((pyWords script).length : ℚ) * 0.4) 30) 300 := by
    rw [videoDuration, pyMax_eq_max, pyMin_eq_min]
  by_cases hS : splitScriptIntoSections script = []
  · have hsc : generateVideoScenes script
        = [⟨videoDuration script, 0, script.take 200⟩] := by
      rw [generateVideoScenes, createScenes]
      simp [hS]
    rw [hsc]
    refine ⟨by simp, hclamp, by simp, by simp, by simp [List.range_succ]⟩
  · have hn : (splitScriptIntoSections script).length ≠ 0 := by
      simpa [List.length_eq_zero] using hS
    have hnq : ((splitScriptIntoSections script).length : ℚ) ≠ 0 :=
      Nat.cast_ne_zero.mpr hn
    have hsc : generateVideoScenes script
        = (splitScriptIntoSections script).enum.map
            (fun p => (⟨videoDuration script / ((splitScriptIntoSections script).length : ℚ),
              (p.1 : ℚ) * (videoDuration script / ((splitScriptIntoSections script).length : ℚ)),
              truncText p.2⟩ : Scene)) := by
      rw [generateVideoScenes, createScenes]
      simp [hS]
    have hlen : (generateVideoScenes script).length
        = (splitScriptIntoSections script).length := by
      rw [hsc]
      simp
    have hdur : (generateVideoScenes script).map Scene.duration
        = List.replicate (splitScriptIntoSections script).length
            (videoDuration script / ((splitScriptIntoSections script).length : ℚ)) := by
      rw [hsc, List.map_map]
      rw [show (Scene.duration ∘ fun p : ℕ × List Char =>
          (⟨videoDuration script / ((splitScriptIntoSections script).length : ℚ),
            (p.1 : ℚ) * (videoDuration script / ((splitScriptIntoSections script).length : ℚ)),
            truncText p.2⟩ : Scene))
        = fun _ => videoDuration script / ((splitScriptIntoSections script).length : ℚ) from rfl]
      rw [List.map_const', List.enum_length]
    refine ⟨?_, hclamp, ?_, ?_, ?_⟩
    · intro hemp
      rw [hemp] at hlen
      exact hn hlen.symm
    · rw [hdur, hlen]
    · rw [hdur]
      exact sum_replicate_div _ _ hn
    · have hstart : (generateVideoScenes script).map Scene.startTime
          = (List.range (splitScriptIntoSections script).length).map
              (fun i : ℕ => (i : ℚ) *
                (videoDuration script / ((splitScriptIntoSections script).length : ℚ))) := by
        rw [hsc, List.map_map]
        apply List.ext_getElem
        · simp only [List.length_map, List.enum_length, List.length_range]
        · intro i h1 h2
          simp only [List.getElem_map, List.getElem_enum, List.getElem_range]
          rfl
      have hrhs : (List.range (generateVideoScenes script).length).map
            (fun i => (((generateVideoScenes script).take i).map Scene.duration).sum)
          = (List.range (splitScriptIntoSections script).length).map
              (fun i : ℕ => (i : ℚ) *
                (videoDuration script / ((splitScriptIntoSections script).length : ℚ))) := by
        rw [hlen]
        apply List.map_congr_left
        intro i hi
        rw [List.mem_range] at hi
        rw [List.map_take, hdur, List.take_replicate, min_eq_left hi.le,
          List.sum_replicate, nsmul_eq_mul]
      rw [hstart, hrhs]

end GenVideo

end Repo2Reel

namespace Repo2Reel

namespace GenVideo

/-- Witness for C7 on the concrete script `"hello world"`: two words, so
the clamped duration is 30; the single scene's durations sum to the
total. -/
theorem c7_scene_partition_witness :
    generateVideoScenes (String.data "hello world") ≠ []
    ∧ ((generateVideoScenes (String.data "hello world")).map Scene.duration).sum
        = videoDuration (String.data "hello world") :=
  ⟨(c7_scene_partition (String.data "hello world") (by decide)).1,
   (c7_scene_partition (String.data "hello world") (by decide)).2.2.2.1⟩

/-- C8 counterexample: for the script `"a\n\n"` the raw `'\n\n'` split is
`["a", ""]` — more than one piece, so rule 2 is selected — yet only one
non-empty paragraph exists and the returned section list `["a"]` has
length 1, not the claimed "at least 2". -/
theorem c8_counterexample :
    paragraphRuleSelected (String.data "a\n\n")
    ∧ splitScriptIntoSections (String.data "a\n\n") = [String.data "a"]
    ∧ (splitScriptIntoSections (String.data "a\n\n")).length < 2 :=
  ⟨⟨by decide, by decide⟩, by decide, by decide⟩

/-- C8 amended: rule 2 (blank-line paragraphs) is applied whenever the
marker rule yields fewer than 2 sections and the raw `'\n\n'` split has
more than one piece — including pieces that are empty or whitespace;
whenever that rule is selected, the returned sections are exactly the
non-empty stripped paragraphs, each of them non-empty, but there may be
fewer than 2 of them (even zero). -/
theorem c8_paragraph_rule (script : List Char) (h : paragraphRuleSelected script) :
    splitScriptIntoSections script
      = ((splitParas script).map pyStrip).filter (· ≠ [])
    ∧ ∀ sec ∈ splitScriptIntoSections script, sec ≠ [] := by
  obtain ⟨h1, h2⟩ := h
  have heq : splitScriptIntoSections script
      = ((splitParas script).map pyStrip).filter (· ≠ []) := by
    rw [splitScriptIntoSections]
    simp only [if_neg (by omega : ¬ 2 ≤ (markerCandidate script).length), if_pos h2]
  refine ⟨heq, ?_⟩
  intro sec hmem
  rw [heq] at hmem
  simpa using (List.mem_filter.mp hmem).2

/-- Witness for the amended C8 theorem on `"a\n\nb"`: the paragraph rule
is selected and returns the two stripped non-empty paragraphs. -/
theorem c8_paragraph_rule_witness :
    splitScriptIntoSections (String.data "a\n\nb")
      = ((splitParas (String.data "a\n\nb")).map pyStrip).filter (· ≠ [])
    ∧ ∀ sec ∈ splitScriptIntoSections (String.data "a\n\nb"), sec ≠ [] :=
  c8_paragraph_rule (String.data "a\n\nb") ⟨by decide, by decide⟩

end GenVideo

end Repo2Reel

namespace Repo2Reel

namespace GenAudio

/-- External effects the audio generator can perform. -/
inductive ExtCall
  | subprocessRun (cmd : String)
  | networkRequest (url : String)
  | localFileWrite
deriving DecidableEq, Repr

/-- Environment for `AudioGenerator` (src/generate_audio.py):
`engineResult` is the outcome of the single TTS engine selected by
`_initialize_tts_engine` (`some path` = the engine helper returns an
audio path; `none` = it raises); `ffmpegSilentOk` is whether the ffmpeg
`anullsrc` invocation inside `_generate_fallback_audio` exits with
status 0; `waveWriteOk` is whether the manual `wave`-module write
succeeds. -/
structure AudioEnv where
  engineResult : Option String
  ffmpegSilentOk : Bool
  waveWriteOk : Bool

/-- Path of the silent fallback artifact (src/generate_audio.py line
340). -/
def silentPath (sessionId : String) : String :=
  "repo2reel_" ++ sessionId ++ "_audio_silent.wav"

/-- `AudioGenerator._generate_fallback_audio` (lines 337-377): it FIRST
attempts an `ffmpeg` subprocess generating silence (lines 343-352); only
if that fails does it write a silent WAV directly through the `wave`
module (lines 354-373 — a local file write, no subprocess and no
network); if that also fails it raises `Exception("Could not generate
audio file")` (line 377).  The result carries the list of external
calls attempted, in order. -/
def generateFallbackAudio (env : AudioEnv) (sessionId : String) :
    Except String (String × List ExtCall) :=
  if env.ffmpegSilentOk then
    .ok (silentPath sessionId, [.subprocessRun "ffmpeg"])
  else if env.waveWriteOk then
    .ok (silentPath sessionId, [.subprocessRun "ffmpeg", .localFileWrite])
  else .error "Could not generate audio file"

/-- `AudioGenerator.generate_audio` (lines 66-92): clean the text (a
total operation), invoke the single selected engine, and on any
exception fall back to `_generate_fallback_audio`; an error from the
fallback itself propagates (line 377). -/
def generateAudio (env : AudioEnv) (sessionId : String) : Except String String :=
  match env.engineResult with
  | some p => .ok p
  | none => (generateFallbackAudio env sessionId).map Prod.fst

/-- Environment in which the selected engine fails and ffmpeg is
available and working. -/
def envEngineFailsFfmpegOk : AudioEnv := ⟨none, true, true⟩

/-- C9 counterexample: with the selected engine failing and ffmpeg
available, the degraded path does produce a silent artifact — but the
"guaranteed local fallback" performs a subprocess call (its external
call trace is `[subprocessRun "ffmpeg"]`, not empty), contradicting the
claim that the fallback performs no network or subprocess calls. -/
theorem c9_counterexample :
    generateAudio envEngineFailsFfmpegOk "s" = .ok (silentPath "s")
    ∧ generateFallbackAudio envEngineFailsFfmpegOk "s"
        = .ok (silentPath "s", [.subprocessRun "ffmpeg"]) :=
  ⟨rfl, rfl⟩

/-- C9 amended: `generate_audio` returns the engine's artifact when the
selected engine succeeds, and otherwise degrades to the locally
generated silent artifact; it cannot fail as long as the direct WAV
write succeeds (normal resource availability).  The fallback, however,
first attempts exactly one `ffmpeg` subprocess invocation and only then
falls back to a direct WAV write; it never performs a network call. -/
theorem c9_fallback_contract (env : AudioEnv) (sid : String) :
    (env.waveWriteOk = true → ∃ p, generateAudio env sid = .ok p)
    ∧ (∀ p, env.engineResult = some p → generateAudio env sid = .ok p)
    ∧ (env.engineResult = none → env.waveWriteOk = true →
        generateAudio env sid = .ok (silentPath sid))
    ∧ (env.ffmpegSilentOk = true →
        generateFallbackAudio env sid = .ok (silentPath sid, [.subprocessRun "ffmpeg"]))
    ∧ (env.ffmpegSilentOk = false → env.waveWriteOk = true →
        generateFallbackAudio env sid
          = .ok (silentPath sid, [.subprocessRun "ffmpeg", .localFileWrite]))
    ∧ (∀ pr tr, generateFallbackAudio env sid = .ok (pr, tr) →
        ∀ u, ExtCall.networkRequest u ∉ tr) := by
  obtain ⟨er, ff, ww⟩ := env
  refine ⟨?_, ?_, ?_, ?_, ?_, ?_⟩
  · intro hw
    cases er with
    | some p => exact ⟨p, rfl⟩
    | none =>
      cases ff
      · subst hw
        exact ⟨silentPath sid, rfl⟩
      · exact ⟨silentPath sid, rfl⟩
  · intro p hp
    simp only at hp
    subst hp
    rfl
  · intro he hw
    simp only at he hw
    subst he
    subst hw
    cases ff <;> rfl
  · intro hf
    simp only at hf
    subst hf
    rfl
  · intro hf hw
    simp only at hf hw
    subst hf
    subst hw
    rfl
  · intro pr tr htr u
    simp only [generateFallbackAudio] at htr
    cases ff
    · cases ww
      · simp at htr
      · simp at htr
        obtain ⟨-, htr2⟩ := htr
        subst htr2
        simp
    · simp at htr
      obtain ⟨-, htr2⟩ := htr
      subst htr2
      simp

/-- Witness for the amended C9 theorem: with the engine failing and
ffmpeg working, `generate_audio` returns the silent artifact and the
fallback's trace is the single ffmpeg subprocess attempt. -/
theorem c9_fallback_contract_witness :
    generateAudio envEngineFailsFfmpegOk "sess" = .ok (silentPath "sess")
    ∧ generateFallbackAudio envEngineFailsFfmpegOk "sess"
        = .ok (silentPath "sess", [.subprocessRun "ffmpeg"]) :=
  ⟨(c9_fallback_contract envEngineFailsFfmpegOk "sess").2.2.1 rfl rfl,
   (c9_fallback_contract envEngineFailsFfmpegOk "sess").2.2.2.1 rfl⟩

end GenAudio

end Repo2Reel

namespace Repo2Reel

namespace GenAudio

/-- The character class of the timing-marker regex `[\d:.-]`
(src/generate_audio.py line 98). -/
def isMarkerChar (c : Char) : Bool :=
  c.isDigit || c == ':' || c == '.' || c == '-'

/-- One left-to-right pass of `re.sub(r'\[[\d:.-]+\]', '', text)`
(line 98): at a `'['`, a match needs a non-empty run of marker
characters followed immediately by `']'`; matched text is removed and
scanning resumes after the match (matches are non-overlapping and the
removed region is not rescanned — `re.sub` makes a single pass).  The
`Nat` argument is structural-recursion fuel; one unit is spent per
character consumed, so `fuel = length` (as supplied by `stripMarkers`)
never runs out and the `0` clause is unreachable. -/
def stripMarkersF : Nat → List Char → List Char
  | 0, l => l
  | _ + 1, [] => []
  | fuel + 1, c :: rest =>
    if c = '[' then
      match rest.dropWhile isMarkerChar with
      | ']' :: after =>
        if (rest.takeWhile isMarkerChar).isEmpty then c :: stripMarkersF fuel rest
        else stripMarkersF fuel after
      | _ => c :: stripMarkersF fuel rest
    else c :: stripMarkersF fuel rest

/-- The marker-removal pass with sufficient fuel. -/
def stripMarkers (l : List Char) : List Char := stripMarkersF l.length l

/-- Index of the earliest `"**"` in the list reachable without crossing
a newline (`.` in the regex does not match `'\n'`), as the lazy group
`(.*?)` of `re.sub(r'\*\*(.*?)\*\*', r'\1', text)` finds it. -/
def findCloseBold : List Char → Option Nat
  | '*' :: '*' :: _ => some 0
  | '\n' :: _ => none
  | _ :: rest => (findCloseBold rest).map (· + 1)
  | [] => none

/-- One pass of the bold-markdown substitution (line 101): `"**" inner
"**"` is replaced by `inner`; a position with no reachable closing
delimiter emits one character and rescans from the next position, as the
regex engine does.  Fuel as in `stripMarkersF`. -/
def subBoldF : Nat → List Char → List Char
  | 0, l => l
  | _ + 1, [] => []
  | fuel + 1, '*' :: '*' :: rest =>
    (match findCloseBold rest with
     | some i => rest.take i ++ subBoldF fuel (rest.drop (i + 2))
     | none => '*' :: subBoldF fuel ('*' :: rest))
  | fuel + 1, c :: rest => c :: subBoldF fuel rest

/-- The bold substitution with sufficient fuel. -/
def subBold (l : List Char) : List Char := subBoldF l.length l

/-- Index of the earliest `'*'` reachable without crossing a newline. -/
def findCloseItalic : List Char → Option Nat
  | '*' :: _ => some 0
  | '\n' :: _ => none
  | _ :: rest => (findCloseItalic rest).map (· + 1)
  | [] => none

/-- One pass of the italic-markdown substitution
`re.sub(r'\*(.*?)\*', r'\1', text)` (line 102).  Fuel as above. -/
def subItalicF : Nat → List Char → List Char
  | 0, l => l
  | _ + 1, [] => []
  | fuel + 1, '*' :: rest =>
    (match findCloseItalic rest with
     | some i => rest.take i ++ subItalicF fuel (rest.drop (i + 1))
     | none => '*' :: subItalicF fuel rest)
  | fuel + 1, c :: rest => c :: subItalicF fuel rest

/-- The italic substitution with sufficient fuel. -/
def subItalic (l : List Char) : List Char := subItalicF l.length l

/-- The backquote character (code point 96). -/
def backquoteChar : Char := Char.ofNat 96

/-- Index of the earliest backquote reachable without crossing a
newline. -/
def findCloseCode : List Char → Option Nat
  | [] => none
  | c :: rest =>
    if c = backquoteChar then some 0
    else if c = '\n' then none
    else (findCloseCode rest).map (· + 1)

/-- One pass of the inline-code substitution (line 103), which removes
paired backquotes and keeps the inner text.  Fuel as above. -/
def subCodeF : Nat → List Char → List Char
  | 0, l => l
  | _ + 1, [] => []
  | fuel + 1, c :: rest =>
    if c = backquoteChar then
      (match findCloseCode rest with
       | some i => rest.take i ++ subCodeF fuel (rest.drop (i + 1))
       | none => c :: subCodeF fuel rest)
    else c :: subCodeF fuel rest

/-- The inline-code substitution with sufficient fuel. -/
def subCode (l : List Char) : List Char := subCodeF l.length l

/-- `re.sub(rX+, rep, text)` for a single-character class: every maximal
run of characters satisfying `p` is replaced by the single character
`rep`.  The boolean flag records whether the previous character belonged
to the current run. -/
def collapseRunsAux (p : Char → Bool) (rep : Char) : Bool → List Char → List Char
  | _, [] => []
  | inRun, c :: rest =>
    if p c then
      (if inRun then collapseRunsAux p rep true rest
       else rep :: collapseRunsAux p rep true rest)
    else c :: collapseRunsAux p rep false rest

/-- Replace each maximal run of `p`-characters by one `rep`. -/
def collapseRuns (p : Char → Bool) (rep : Char) (l : List Char) : List Char :=
  collapseRunsAux p rep false l

/-- `AudioGenerator._clean_text_for_tts` (src/generate_audio.py lines
94-114): remove timing markers, strip markdown bold/italic/code, replace
newline runs then whitespace runs by single spaces, strip, and append a
final period to a non-empty result that lacks one. -/
def cleanTextForTTS (text : List Char) : List Char :=
  let t1 := stripMarkers text
  let t2 := subBold t1
  let t3 := subItalic t2
  let t4 := subCode t3
  let t5 := collapseRuns (fun c => c == '\n') ' ' t4
  let t6 := collapseRuns GenVideo.isPyWS ' ' t5
  let t7 := GenVideo.pyStrip t6
  if t7 = [] then t7
  else if t7.getLast? = some '.' then t7
  else t7 ++ ['.']

/-- A bracketed timing marker of the form `[` run-of-`[\d:.-]` `]`
begins here. -/
def startsWithMarker : List Char → Bool
  | '[' :: rest =>
    !(rest.takeWhile isMarkerChar).isEmpty
      && ((rest.dropWhile isMarkerChar).head? == some ']')
  | _ => false

/-- Some suffix of the list begins with a bracketed timing marker. -/
def hasTimingMarker (l : List Char) : Bool := l.tails.any startsWithMarker

end GenAudio

end Repo2Reel

namespace Repo2Reel

namespace GenAudio

/-- Every character of a collapsed list either fails `p` or is the
replacement character. -/
theorem collapseRunsAux_mem (p : Char → Bool) (rep : Char) :
    ∀ (l : List Char) (b : Bool) (c : Char),
      c ∈ collapseRunsAux p rep b l → p c = false ∨ c = rep := by
  intro l
  induction l with
  | nil =>
    intro b c hc
    simp [collapseRunsAux] at hc
  | cons d rest ih =>
    intro b c hc
    simp only [collapseRunsAux] at hc
    by_cases hp : p d
    · rw [if_pos hp] at hc
      cases b
      · simp only [Bool.false_eq_true, if_false, List.mem_cons] at hc
        rcases hc with hc | hc
        · exact Or.inr hc
        · exact ih true c hc
      · simp only [if_true] at hc
        exact ih true c hc
    · rw [if_neg hp] at hc
      rcases List.mem_cons.mp hc with hc | hc
      · subst hc
        exact Or.inl (Bool.eq_false_iff.mpr hp)
      · exact ih false c hc

/-- In run-continuation state the head of the collapsed list never
satisfies `p`: the run's characters are being skipped. -/
theorem collapseRunsAux_head_true (p : Char → Bool) (rep : Char) :
    ∀ (l : List Char) (c : Char),
      (collapseRunsAux p rep true l).head? = some c → p c = false := by
  intro l
  induction l with
  | nil =>
    intro c hc
    simp [collapseRunsAux] at hc
  | cons d rest ih =>
    intro c hc
    simp only [collapseRunsAux, if_true] at hc
    by_cases hp : p d
    · rw [if_pos hp] at hc
      exact ih c hc
    · rw [if_neg hp] at hc
      simp only [List.head?_cons, Option.some.injEq] at hc
      subst hc
      exact Bool.eq_false_iff.mpr hp

/-- A collapsed list never has two adjacent characters that both
satisfy `p`. -/
theorem collapseRunsAux_chain (p : Char → Bool) (rep : Char) :
    ∀ (l : List Char) (b : Bool),
      List.Chain' (fun a c => ¬ (p a = true ∧ p c = true))
        (collapseRunsAux p rep b l) := by
  intro l
  induction l with
  | nil =>
    intro b
    simp [collapseRunsAux]
  | cons d rest ih =>
    intro b
    simp only [collapseRunsAux]
    by_cases hp : p d
    · rw [if_pos hp]
      cases b
      · simp only [Bool.false_eq_true, if_false]
        refine List.chain'_cons'.mpr ⟨?_, ih true⟩
        intro y hy
        have := collapseRunsAux_head_true p rep rest y hy
        simp [this]
      · simp only [if_true]
        exact ih true
    · rw [if_neg hp]
      refine List.chain'_cons'.mpr ⟨?_, ih false⟩
      intro y hy
      simp [hp]

/-- `pyStrip` returns a contiguous part of its input. -/
theorem pyStrip_contiguous (l : List Char) : GenVideo.pyStrip l <:+: l := by
  have h1 : l.dropWhile GenVideo.isPyWS <:+ l := List.dropWhile_suffix _
  have h2 : GenVideo.pyStrip l <+: l.dropWhile GenVideo.isPyWS :=
    List.rdropWhile_prefix GenVideo.isPyWS (l.dropWhile GenVideo.isPyWS)
  exact h2.isInfix.trans h1.isInfix

/-- C10 counterexample: on the nested input `"[1[2]3]"` the single
`re.sub` pass removes only `"[2]"`, leaving `"[13]"` — and the final
output `"[13]."` still contains a bracketed timing marker of the form
`[digits]`, contradicting the claim that the cleaned text contains no
such marker. -/
theorem c10_counterexample :
    cleanTextForTTS (String.data "[1[2]3]") = String.data "[13]."
    ∧ hasTimingMarker (cleanTextForTTS (String.data "[1[2]3]")) = true :=
  ⟨by decide, by decide⟩

/-- C10 amended: for every input the cleaned text contains no newline,
has no two consecutive whitespace characters, and ends with a period
whenever it is non-empty.  Marker removal, however, is a single
non-iterated pass, so removing a nested marker can splice a new marker
together (see the counterexample); the no-marker clause of the claim
does not hold. -/
theorem c10_clean_text (text : List Char) :
    '\n' ∉ cleanTextForTTS text
    ∧ List.Chain' (fun a b => ¬ (GenVideo.isPyWS a = true ∧ GenVideo.isPyWS b = true))
        (cleanTextForTTS text)
    ∧ (cleanTextForTTS text ≠ [] → (cleanTextForTTS text).getLast? = some '.') := by
  have hres : cleanTextForTTS text
      = (if GenVideo.pyStrip (collapseRuns GenVideo.isPyWS ' '
            (collapseRuns (fun c => c == '\n') ' '
              (subCode (subItalic (subBold (stripMarkers text)))))) = []
         then GenVideo.pyStrip (collapseRuns GenVideo.isPyWS ' '
            (collapseRuns (fun c => c == '\n') ' '
              (subCode (subItalic (subBold (stripMarkers text))))))
         else if (GenVideo.pyStrip (collapseRuns GenVideo.isPyWS ' '
            (collapseRuns (fun c => c == '\n') ' '
              (subCode (subItalic (subBold (stripMarkers text))))))).getLast?
              = some '.'
         then GenVideo.pyStrip (collapseRuns GenVideo.isPyWS ' '
            (collapseRuns (fun c => c == '\n') ' '
              (subCode (subItalic (subBold (stripMarkers text))))))
         else GenVideo.pyStrip (collapseRuns GenVideo.isPyWS ' '
            (collapseRuns (fun c => c == '\n') ' '
              (subCode (subItalic (subBold (stripMarkers text)))))) ++ ['.']) := rfl
  generalize ht6 : collapseRuns GenVideo.isPyWS ' '
      (collapseRuns (fun c => c == '\n') ' '
        (subCode (subItalic (subBold (stripMarkers text))))) = t6 at hres
  have hmem7 : ∀ c ∈ GenVideo.pyStrip t6, GenVideo.isPyWS c = false ∨ c = ' ' := by
    intro c hc
    have hc6 : c ∈ t6 := (pyStrip_contiguous t6).sublist.subset hc
    rw [← ht6] at hc6
    exact collapseRunsAux_mem GenVideo.isPyWS ' ' _ false c hc6
  have hchain7 : List.Chain'
      (fun a b => ¬ (GenVideo.isPyWS a = true ∧ GenVideo.isPyWS b = true))
      (GenVideo.pyStrip t6) := by
    have : List.Chain'
        (fun a b => ¬ (GenVideo.isPyWS a = true ∧ GenVideo.isPyWS b = true)) t6 := by
      rw [← ht6]
      exact collapseRunsAux_chain GenVideo.isPyWS ' ' _ false
    exact this.infix (pyStrip_contiguous t6)
  have hnl7 : '\n' ∉ GenVideo.pyStrip t6 := by
    intro hc
    rcases hmem7 '\n' hc with h | h
    · exact absurd h (by decide)
    · exact absurd h (by decide)
  rw [hres]
  by_cases h0 : GenVideo.pyStrip t6 = []
  · simp [h0]
  · rw [if_neg h0]
    by_cases hdot : (GenVideo.pyStrip t6).getLast? = some '.'
    · rw [if_pos hdot]
      exact ⟨hnl7, hchain7, fun _ => hdot⟩
    · rw [if_neg hdot]
      refine ⟨?_, ?_, fun _ => ?_⟩
      · intro hc
        rcases List.mem_append.mp hc with hc | hc
        · exact hnl7 hc
        · simp at hc
      · rw [List.chain'_append]
        refine ⟨hchain7, by simp, ?_⟩
        intro x hx y hy
        simp only [List.head?_cons, Option.mem_def, Option.some.injEq] at hy
        subst hy
        intro hcontra
        exact absurd hcontra.2 (by decide)
      · exact List.getLast?_concat _

/-- Witness for the amended C10 theorem on a concrete input with double
spaces and newlines: the cleaned text ends with a period and contains no
newline. -/
theorem c10_clean_text_witness :
    '\n' ∉ cleanTextForTTS (String.data "hello  world\n\nbye")
    ∧ (cleanTextForTTS (String.data "hello  world\n\nbye")).getLast? = some '.' :=
  ⟨(c10_clean_text (String.data "hello  world\n\nbye")).1,
   (c10_clean_text (String.data "hello  world\n\nbye")).2.2 (by decide)⟩

end GenAudio

end Repo2Reel
